import Mathlib

/-!
Formal model of the "My-Own-Cursor" agent runtime.

This development shallowly embeds the core of the repository:
* the persistent session memory store (`build/lib/chat_memory.py`),
* the interactive shell controller (`tools/shell_tool.py`),
* the file tools (`tools/file_tools.py`, `build/lib/tools/file_tools.py`),
* the tool dispatch loops, validation battery and end-to-end
  orchestrator (`main.py`).

Python strings are modelled as `List Char`; machine-level effects
(the OS file system, subprocesses, the model endpoint) are modelled as
explicit state records and oracles threaded through the functions.
An uncaught Python exception is modelled by an `Option`-valued function
returning `none`.
-/

/-- Python strings are modelled as lists of characters. -/
abbrev Str := List Char

/-- The characters removed by Python's `str.strip()`. -/
def isSpaceC (c : Char) : Bool :=
  c = ' ' || c = '\t' || c = '\n' || c = '\r' || c = '\x0b' || c = '\x0c'

/-- Model of Python's `str.strip()`: drop whitespace at both ends. -/
def stripStr (s : Str) : Str :=
  ((s.dropWhile isSpaceC).reverse.dropWhile isSpaceC).reverse

/-- ASCII lower-casing of one character (model of `str.lower` on the
characters that occur in the markers and outputs we reason about). -/
def lowerC (c : Char) : Char :=
  if 'A' ≤ c ∧ c ≤ 'Z' then Char.ofNat (c.toNat + 32) else c

/-- Model of Python's `str.lower()`. -/
def lowerStr (s : Str) : Str := s.map lowerC

/-- `isPrefixB p l` is true when `p` is a prefix of `l` (Boolean form). -/
def isPrefixB : Str → Str → Bool
  | [], _ => true
  | _ :: _, [] => false
  | a :: p, b :: l => a = b && isPrefixB p l

/-- Model of Python's substring test `needle in hay`. -/
def containsSub (needle : Str) : Str → Bool
  | [] => isPrefixB needle []
  | c :: t => isPrefixB needle (c :: t) || containsSub needle t

/-- Model of Python's `str.startswith`. -/
def startsWithStr (s p : Str) : Bool := isPrefixB p s

/-- Lower-case hexadecimal digit characters, as produced by `json.dumps`
for `\u00XX` escapes (and, for values below 10, ordinary decimal digits). -/
def hexDigitChar (n : Nat) : Char :=
  if n < 10 then Char.ofNat (48 + n) else Char.ofNat (87 + n)

/-- Numeric value of a hexadecimal digit character, `none` otherwise. -/
def hexVal (c : Char) : Option Nat :=
  if '0' ≤ c ∧ c ≤ '9' then some (c.toNat - 48)
  else if 'a' ≤ c ∧ c ≤ 'f' then some (c.toNat - 87)
  else if 'A' ≤ c ∧ c ≤ 'F' then some (c.toNat - 55)
  else none

/-- How `json.dumps(..., ensure_ascii=False)` renders one character of a
JSON string: the two-character named escapes, `\u00XX` for the remaining
control characters, and every other character verbatim. -/
def encodeJsonChar (c : Char) : Str :=
  if c = '"' then ['\\', '"']
  else if c = '\\' then ['\\', '\\']
  else if c = '\n' then ['\\', 'n']
  else if c = '\t' then ['\\', 't']
  else if c = '\r' then ['\\', 'r']
  else if c = '\x08' then ['\\', 'b']
  else if c = '\x0c' then ['\\', 'f']
  else if c.toNat < 32 then
    ['\\', 'u', '0', '0', hexDigitChar (c.toNat / 16), hexDigitChar (c.toNat % 16)]
  else [c]

/-- The body of a serialized JSON string (between the quotes). -/
def strBody (s : Str) : Str := s.flatMap encodeJsonChar

/-- Decimal rendering of a natural number, digit characters in order. -/
def natToChars (n : Nat) : Str :=
  if n < 10 then [hexDigitChar n]
  else natToChars (n / 10) ++ [hexDigitChar (n % 10)]
decreasing_by exact Nat.div_lt_self (by omega) (by omega)

/-- The character produced by a two-character JSON escape `\X`. -/
def decodeEsc (e : Char) : Option Char :=
  if e = '"' then some '"'
  else if e = '\\' then some '\\'
  else if e = '/' then some '/'
  else if e = 'n' then some '\n'
  else if e = 't' then some '\t'
  else if e = 'r' then some '\r'
  else if e = 'b' then some '\x08'
  else if e = 'f' then some '\x0c'
  else none

/-- Read four hexadecimal digits after `\u`. -/
def readHex4 : Str → Option (Nat × Str)
  | h1 :: h2 :: h3 :: h4 :: rest =>
    (hexVal h1).bind fun v1 =>
    (hexVal h2).bind fun v2 =>
    (hexVal h3).bind fun v3 =>
    (hexVal h4).map fun v4 => (((v1 * 16 + v2) * 16 + v3) * 16 + v4, rest)
  | _ => none

/-- Read the remainder of a JSON escape sequence (the part after the
backslash), returning the decoded character and the remaining input. -/
def readEsc : Str → Option (Char × Str)
  | [] => none
  | e :: rest =>
    if e = 'u' then (readHex4 rest).map (fun p => (Char.ofNat p.1, p.2))
    else (decodeEsc e).map (fun ch => (ch, rest))

theorem readHex4_len (l : Str) (v : Nat) (r : Str)
    (h : readHex4 l = some (v, r)) : r.length ≤ l.length := by
  rcases l with _ | ⟨a, _ | ⟨b, _ | ⟨c, _ | ⟨d, t⟩⟩⟩⟩ <;>
    simp [readHex4, Option.bind_eq_some, Option.map_eq_some'] at h
  obtain ⟨_, _, _, _, _, _, _, _, _, ht⟩ := h
  subst ht
  simp
  omega

theorem readEsc_len (l : Str) (ch : Char) (r : Str)
    (h : readEsc l = some (ch, r)) : r.length ≤ l.length := by
  rcases l with _ | ⟨e, rest⟩
  · simp [readEsc] at h
  · simp only [readEsc] at h
    split_ifs at h
    · rcases hh : readHex4 rest with _ | ⟨v, r2⟩ <;> rw [hh] at h <;> simp at h
      have := readHex4_len rest v r2 hh
      obtain ⟨h1, h2⟩ := h
      subst h2
      simp
      omega
    · rcases hd : decodeEsc e with _ | c2 <;> rw [hd] at h <;> simp at h
      obtain ⟨h1, h2⟩ := h
      subst h2
      simp

/-- Parse the body of a JSON string up to and including the closing quote,
returning the decoded content and the remaining input (model of the string
scanner inside `json.loads`). -/
def parseStrBody (l : Str) : Option (Str × Str) :=
  match l with
  | [] => none
  | c :: rest =>
    if c = '"' then some ([], rest)
    else if c = '\\' then
      match h2 : readEsc rest with
      | none => none
      | some (ch, rest2) => (parseStrBody rest2).map (fun p => (ch :: p.1, p.2))
    else (parseStrBody rest).map (fun p => (c :: p.1, p.2))
termination_by l.length
decreasing_by
  all_goals simp_wf
  have := readEsc_len _ _ _ h2
  omega

theorem parseStrBody_quote (rest : Str) :
    parseStrBody ('"' :: rest) = some ([], rest) := by
  simp [parseStrBody]

theorem parseStrBody_backslash (rest : Str) (ch : Char) (rest2 : Str)
    (h : readEsc rest = some (ch, rest2)) :
    parseStrBody ('\\' :: rest) = (parseStrBody rest2).map (fun p => (ch :: p.1, p.2)) := by
  rw [parseStrBody]
  have h1 : ¬ ('\\' : Char) = '"' := by decide
  rw [if_neg h1, if_pos rfl]
  split
  · simp_all
  · rename_i heq
    rw [h] at heq
    injection heq with heq2
    injection heq2
    subst_vars
    rfl

theorem parseStrBody_plain (c : Char) (rest : Str) (h1 : ¬ c = '"') (h2 : ¬ c = '\\') :
    parseStrBody (c :: rest) = (parseStrBody rest).map (fun p => (c :: p.1, p.2)) := by
  rw [parseStrBody]
  rw [if_neg h1, if_neg h2]

/-- Decimal digit test. -/
def isDigitC (c : Char) : Bool := 48 ≤ c.toNat && c.toNat ≤ 57

/-- Consume a run of decimal digits, accumulating their value. -/
def parseDigitsAux (acc : Nat) : Str → Nat × Str
  | [] => (acc, [])
  | c :: rest =>
    if isDigitC c then parseDigitsAux (acc * 10 + (c.toNat - 48)) rest
    else (acc, c :: rest)

/-- Parse a decimal number (at least one digit). -/
def parseNum : Str → Option (Nat × Str)
  | [] => none
  | c :: rest =>
    if isDigitC c then some (parseDigitsAux 0 (c :: rest)) else none

/-- Consume an expected literal from the front of the input. -/
def dropLit : Str → Str → Option Str
  | [], l => some l
  | _ :: _, [] => none
  | c :: cs, x :: xs => if x = c then dropLit cs xs else none

/-- One persisted chat message: `{"role": ..., "content": ..., "ts": ...}`.
The timestamp is modelled as a natural number of clock ticks. -/
structure Msg where
  role : Str
  content : Str
  ts : Nat
deriving DecidableEq, Repr

/-- Literal up to and including the opening quote of the role value. -/
def litRoleKey : Str :=
  ['\x7b', '"', 'r', 'o', 'l', 'e', '"', ':', ' ', '"']

/-- Literal between the role value and the content value. -/
def litContentKey : Str :=
  [',', ' ', '"', 'c', 'o', 'n', 't', 'e', 'n', 't', '"', ':', ' ', '"']

/-- Literal between the content value and the timestamp. -/
def litTsKey : Str := [',', ' ', '"', 't', 's', '"', ':', ' ']

/-- `json.dumps({"role": r, "content": c, "ts": t}, ensure_ascii=False)`,
exactly as `ChatMemory._append_line` serializes one message (with the
timestamp modelled as a natural number). -/
def encodeMsg (m : Msg) : Str :=
  litRoleKey ++ strBody m.role ++ ('"' :: litContentKey) ++ strBody m.content
    ++ ('"' :: litTsKey) ++ natToChars m.ts ++ ['\x7d']

/-- `json.loads` restricted to the record format written by
`ChatMemory._append_line`; any other line is malformed (`none`). -/
def parseMsgLine (l : Str) : Option Msg :=
  match dropLit litRoleKey l with
  | none => none
  | some l1 =>
    match parseStrBody l1 with
    | none => none
    | some (role, l2) =>
      match dropLit litContentKey l2 with
      | none => none
      | some l3 =>
        match parseStrBody l3 with
        | none => none
        | some (content, l4) =>
          match dropLit litTsKey l4 with
          | none => none
          | some l5 =>
            match parseNum l5 with
            | none => none
            | some (ts, l6) =>
              if l6 = ['\x7d'] then some (Msg.mk role content ts) else none

/-- `json.loads` on an old-schema record that has no `"ts"` field. -/
def parseMsgLineNoTs (l : Str) : Option (Str × Str) :=
  match dropLit litRoleKey l with
  | none => none
  | some l1 =>
    match parseStrBody l1 with
    | none => none
    | some (role, l2) =>
      match dropLit litContentKey l2 with
      | none => none
      | some l3 =>
        match parseStrBody l3 with
        | none => none
        | some (content, l4) =>
          if l4 = ['\x7d'] then some (role, content) else none

/-- One line of `ChatMemory._load_from_file`: parse the record, backfilling
a missing timestamp with the load time (`if "ts" not in obj`). -/
def parseRecord (loadTime : Nat) (l : Str) : Option Msg :=
  match parseMsgLine l with
  | some m => some m
  | none => (parseMsgLineNoTs l).map (fun rc => Msg.mk rc.1 rc.2 loadTime)

/-- Split file content into lines at newline characters (model of
iterating over a text file; the terminator is not kept). -/
def splitNL : Str → List Str
  | [] => [[]]
  | c :: cs =>
    if c = '\n' then [] :: splitNL cs
    else
      match splitNL cs with
      | [] => [[c]]
      | l :: ls => (c :: l) :: ls

/-- The line loop of `ChatMemory._load_from_file`: strip each line, skip
empty lines, skip lines that fail to parse, keep the rest in order. -/
def loadLines (loadTime : Nat) : List Str → List Msg
  | [] => []
  | l :: rest =>
    if stripStr l = [] then loadLines loadTime rest
    else
      match parseRecord loadTime (stripStr l) with
      | none => loadLines loadTime rest
      | some m => m :: loadLines loadTime rest

/-- `ChatMemory._load_from_file` on the full file content. -/
def loadFile (loadTime : Nat) (content : Str) : List Msg :=
  loadLines loadTime (splitNL content)

/-- The host file system and directory set seen by the memory store. -/
structure Store where
  dirs : List Str
  files : List (Str × Str)
deriving DecidableEq

/-- Content of a file, `none` when the path does not exist. -/
def storeLookup : List (Str × Str) → Str → Option Str
  | [], _ => none
  | (k, v) :: rest, key => if k = key then some v else storeLookup rest key

/-- Append a chunk to a file, creating it when absent (open mode `"a"`). -/
def storeAppendFile (files : List (Str × Str)) (key chunk : Str) : List (Str × Str) :=
  match files with
  | [] => [(key, chunk)]
  | (k, v) :: rest =>
    if k = key then (k, v ++ chunk) :: rest
    else (k, v) :: storeAppendFile rest key chunk

/-- `os.makedirs(d, exist_ok=True)`. -/
def storeInsertDir (dirs : List Str) (d : Str) : List Str :=
  if d ∈ dirs then dirs else dirs ++ [d]

/-- In-memory state of one `ChatMemory` object. -/
structure ChatMemory where
  storageDir : Str
  sessionId : Str
  filepath : Str
  messages : List Msg
deriving DecidableEq

/-- `os.path.join(self.storage_dir, f"...jsonl")`: the log path of a session. -/
def sessionPath (storageDir sid : Str) : Str :=
  storageDir ++ '/' :: sid ++ ".jsonl".data

/-- `ChatMemory.__init__`: pick the session id (the generated
timestamp-derived id when none is given), create the storage directory,
derive the log path, and load the log if it already exists. -/
def chatMemoryInit (sessionId : Option Str) (genId : Str) (storageDir : Str)
    (loadTime : Nat) (st : Store) : ChatMemory × Store :=
  let sid := sessionId.getD genId
  let dirs1 := storeInsertDir st.dirs storageDir
  let fp := sessionPath storageDir sid
  let msgs :=
    match storeLookup st.files fp with
    | none => []
    | some content => loadFile loadTime content
  (ChatMemory.mk storageDir sid fp msgs, Store.mk dirs1 st.files)

/-- `ChatMemory.load`: load an existing session by id (creates if absent). -/
def ChatMemory.load (sessionId : Str) (storageDir : Str) (genId : Str)
    (loadTime : Nat) (st : Store) : ChatMemory × Store :=
  chatMemoryInit (some sessionId) genId storageDir loadTime st

/-- `ChatMemory.add`: append the message in memory and append its
serialized record plus a newline to the log file. -/
def ChatMemory.add (mem : ChatMemory) (st : Store) (role content : Str)
    (now : Nat) : ChatMemory × Store :=
  let m : Msg := Msg.mk role content now
  ({ mem with messages := mem.messages ++ [m] },
   { st with files := storeAppendFile st.files mem.filepath (encodeMsg m ++ ['\n']) })

/-- A sequence of `add` calls (role, content and clock value per call). -/
def runAdds (adds : List Msg) (p : ChatMemory × Store) : ChatMemory × Store :=
  adds.foldl (fun q m => ChatMemory.add q.1 q.2 m.role m.content m.ts) p

/-- The exact log content produced by a sequence of `add` calls. -/
def logOf : List Msg → Str
  | [] => []
  | m :: rest => encodeMsg m ++ '\n' :: logOf rest

theorem hexVal_hexDigitChar (d : Nat) (h : d < 16) : hexVal (hexDigitChar d) = some d := by
  interval_cases d <;> decide

theorem dropLit_append (lit rest : Str) : dropLit lit (lit ++ rest) = some rest := by
  induction lit with
  | nil => rfl
  | cons c cs ih => simp [dropLit, ih]

theorem parseStrBody_encode (s rest : Str) :
    parseStrBody (strBody s ++ '"' :: rest) = some (s, rest) := by
  induction s with
  | nil => simp [strBody, parseStrBody_quote]
  | cons c s ih =>
    have hb : strBody (c :: s) ++ '"' :: rest
        = encodeJsonChar c ++ (strBody s ++ '"' :: rest) := by
      simp [strBody]
    rw [hb]
    unfold encodeJsonChar
    split_ifs with h1 h2 h3 h4 h5 h6 h7 h8 <;>
      simp only [List.cons_append, List.nil_append]
    · subst h1
      rw [parseStrBody_backslash ('\"' :: (strBody s ++ '"' :: rest)) '\"'
        (strBody s ++ '"' :: rest) (by simp [readEsc, decodeEsc]), ih]
      rfl
    · subst h2
      rw [parseStrBody_backslash ('\\' :: (strBody s ++ '"' :: rest)) '\\'
        (strBody s ++ '"' :: rest) (by simp [readEsc, decodeEsc]), ih]
      rfl
    · subst h3
      rw [parseStrBody_backslash ('n' :: (strBody s ++ '"' :: rest)) '\n'
        (strBody s ++ '"' :: rest) (by simp [readEsc, decodeEsc]), ih]
      rfl
    · subst h4
      rw [parseStrBody_backslash ('t' :: (strBody s ++ '"' :: rest)) '\t'
        (strBody s ++ '"' :: rest) (by simp [readEsc, decodeEsc]), ih]
      rfl
    · subst h5
      rw [parseStrBody_backslash ('r' :: (strBody s ++ '"' :: rest)) '\r'
        (strBody s ++ '"' :: rest) (by simp [readEsc, decodeEsc]), ih]
      rfl
    · subst h6
      rw [parseStrBody_backslash ('b' :: (strBody s ++ '"' :: rest)) '\x08'
        (strBody s ++ '"' :: rest) (by simp [readEsc, decodeEsc]), ih]
      rfl
    · subst h7
      rw [parseStrBody_backslash ('f' :: (strBody s ++ '"' :: rest)) '\x0c'
        (strBody s ++ '"' :: rest) (by simp [readEsc, decodeEsc]), ih]
      rfl
    · have hd1 : hexVal (hexDigitChar (c.toNat / 16)) = some (c.toNat / 16) :=
        hexVal_hexDigitChar _ (by omega)
      have hd2 : hexVal (hexDigitChar (c.toNat % 16)) = some (c.toNat % 16) :=
        hexVal_hexDigitChar _ (by omega)
      have hv0 : hexVal '0' = some 0 := by decide
      have hre : readEsc ('u' :: '0' :: '0' :: hexDigitChar (c.toNat / 16)
          :: hexDigitChar (c.toNat % 16) :: (strBody s ++ '"' :: rest))
          = some (c, strBody s ++ '"' :: rest) := by
        have harith : c.toNat / 16 * 16 + c.toNat % 16 = c.toNat := by omega
        simp [readEsc, readHex4, hv0, hd1, hd2, harith, Char.ofNat_toNat]
      rw [parseStrBody_backslash ('u' :: '0' :: '0' :: hexDigitChar (c.toNat / 16)
        :: hexDigitChar (c.toNat % 16) :: (strBody s ++ '"' :: rest)) c
        (strBody s ++ '"' :: rest) hre, ih]
      rfl
    · rw [parseStrBody_plain c _ h1 h2, ih]
      rfl

theorem digit_toNat (n : Nat) (h : n < 10) : (hexDigitChar n).toNat = 48 + n := by
  interval_cases n <;> decide

theorem isDigitC_digit (n : Nat) (h : n < 10) : isDigitC (hexDigitChar n) = true := by
  interval_cases n <;> decide

theorem hexDigitChar_ne_nl (n : Nat) (h : n < 16) : hexDigitChar n ≠ '\n' := by
  interval_cases n <;> decide

theorem parseDigitsAux_natToChars (n : Nat) : ∀ (acc : Nat) (t : Str),
    parseDigitsAux acc (natToChars n ++ t)
      = parseDigitsAux (acc * 10 ^ (natToChars n).length + n) t := by
  induction n using Nat.strong_induction_on with
  | _ n ih =>
    intro acc t
    by_cases h : n < 10
    · rw [natToChars, if_pos h]
      simp only [List.cons_append, List.nil_append, List.length_cons, List.length_nil]
      rw [parseDigitsAux, if_pos (isDigitC_digit n h), digit_toNat n h]
      have : acc * 10 + (48 + n - 48) = acc * 10 ^ (0 + 1) + n := by
        simp
      rw [this]
    · rw [natToChars, if_neg h]
      rw [List.append_assoc]
      rw [ih (n / 10) (Nat.div_lt_self (by omega) (by omega)) acc
        ([hexDigitChar (n % 10)] ++ t)]
      simp only [List.cons_append, List.nil_append]
      rw [parseDigitsAux, if_pos (isDigitC_digit (n % 10) (by omega)),
        digit_toNat (n % 10) (by omega)]
      have heq : (acc * 10 ^ (natToChars (n / 10)).length + n / 10) * 10 + (48 + n % 10 - 48)
          = acc * 10 ^ (natToChars (n / 10) ++ [hexDigitChar (n % 10)]).length + n := by
        have h1 : 48 + n % 10 - 48 = n % 10 := by omega
        rw [h1, List.length_append, List.length_singleton, pow_succ]
        have h2 : n / 10 * 10 + n % 10 = n := by omega
        calc (acc * 10 ^ (natToChars (n / 10)).length + n / 10) * 10 + n % 10
            = acc * (10 ^ (natToChars (n / 10)).length * 10) + (n / 10 * 10 + n % 10) := by
              ring
          _ = acc * (10 ^ (natToChars (n / 10)).length * 10) + n := by rw [h2]
      rw [heq]

theorem natToChars_head (n : Nat) : ∃ d t, natToChars n = hexDigitChar d :: t ∧ d < 10 := by
  induction n using Nat.strong_induction_on with
  | _ n ih =>
    by_cases h : n < 10
    · exact ⟨n, [], by rw [natToChars, if_pos h], h⟩
    · obtain ⟨d, t, hdt, hd⟩ := ih (n / 10) (Nat.div_lt_self (by omega) (by omega))
      exact ⟨d, t ++ [hexDigitChar (n % 10)], by rw [natToChars, if_neg h, hdt]; simp, hd⟩

theorem parseNum_natToChars (n : Nat) (c : Char) (r : Str) (hc : isDigitC c = false) :
    parseNum (natToChars n ++ c :: r) = some (n, c :: r) := by
  obtain ⟨d, t, hdt, hd⟩ := natToChars_head n
  rw [hdt]
  simp only [List.cons_append]
  rw [parseNum, if_pos (isDigitC_digit d hd)]
  rw [← List.cons_append, ← hdt]
  rw [parseDigitsAux_natToChars n 0 (c :: r)]
  rw [parseDigitsAux, if_neg (by rw [hc]; exact Bool.false_ne_true)]
  simp

theorem stripStr_sandwich (a b : Char) (mid : Str)
    (ha : isSpaceC a = false) (hb : isSpaceC b = false) :
    stripStr (a :: (mid ++ [b])) = a :: (mid ++ [b]) := by
  unfold stripStr
  have h1 : (a :: (mid ++ [b])).dropWhile isSpaceC = a :: (mid ++ [b]) := by
    simp [List.dropWhile_cons, ha]
  rw [h1]
  have h2 : (a :: (mid ++ [b])).reverse = b :: (mid.reverse ++ [a]) := by
    simp
  rw [h2]
  have h3 : (b :: (mid.reverse ++ [a])).dropWhile isSpaceC = b :: (mid.reverse ++ [a]) := by
    simp [List.dropWhile_cons, hb]
  rw [h3]
  simp

theorem encodeJsonChar_no_newline (c : Char) : '\n' ∉ encodeJsonChar c := by
  unfold encodeJsonChar
  split_ifs with h1 h2 h3 h4 h5 h6 h7 h8
  · decide
  · decide
  · decide
  · decide
  · decide
  · decide
  · decide
  · intro hm
    have hd1 := hexDigitChar_ne_nl (c.toNat / 16) (by omega)
    have hd2 := hexDigitChar_ne_nl (c.toNat % 16) (by omega)
    simp only [List.mem_cons, List.not_mem_nil, or_false] at hm
    rcases hm with h | h | h | h | h | h
    · exact absurd h (by decide)
    · exact absurd h (by decide)
    · exact absurd h (by decide)
    · exact absurd h (by decide)
    · exact hd1 h.symm
    · exact hd2 h.symm
  · intro hm
    simp only [List.mem_singleton] at hm
    exact h3 hm.symm

theorem strBody_no_newline (s : Str) : '\n' ∉ strBody s := by
  intro hm
  simp only [strBody, List.mem_flatMap] at hm
  obtain ⟨c, _, hc⟩ := hm
  exact encodeJsonChar_no_newline c hc

theorem natToChars_no_newline (n : Nat) : '\n' ∉ natToChars n := by
  induction n using Nat.strong_induction_on with
  | _ n ih =>
    by_cases h : n < 10
    · rw [natToChars, if_pos h]
      intro hm
      simp only [List.mem_singleton] at hm
      exact hexDigitChar_ne_nl n (by omega) hm.symm
    · rw [natToChars, if_neg h]
      intro hm
      rcases List.mem_append.mp hm with h2 | h2
      · exact ih (n / 10) (Nat.div_lt_self (by omega) (by omega)) h2
      · simp only [List.mem_singleton] at h2
        exact hexDigitChar_ne_nl (n % 10) (by omega) h2.symm

theorem encodeMsg_no_newline (m : Msg) : '\n' ∉ encodeMsg m := by
  intro hm
  simp only [encodeMsg, List.append_assoc, List.mem_append] at hm
  rcases hm with h | h | h | h | h | h | h
  · exact absurd h (by decide)
  · exact strBody_no_newline m.role h
  · exact absurd h (by decide)
  · exact strBody_no_newline m.content h
  · exact absurd h (by decide)
  · exact natToChars_no_newline m.ts h
  · exact absurd h (by decide)

theorem encodeMsg_shape (m : Msg) :
    encodeMsg m = '\x7b' :: ((['"', 'r', 'o', 'l', 'e', '"', ':', ' ', '"']
      ++ strBody m.role ++ ('"' :: litContentKey) ++ strBody m.content
      ++ ('"' :: litTsKey) ++ natToChars m.ts) ++ ['\x7d']) := by
  simp [encodeMsg, litRoleKey]

theorem stripStr_encodeMsg (m : Msg) : stripStr (encodeMsg m) = encodeMsg m := by
  rw [encodeMsg_shape]
  exact stripStr_sandwich _ _ _ (by decide) (by decide)

theorem parseMsgLine_encode (m : Msg) : parseMsgLine (encodeMsg m) = some m := by
  have hshape : encodeMsg m = litRoleKey ++ (strBody m.role ++ '"' :: (litContentKey
      ++ (strBody m.content ++ '"' :: (litTsKey ++ (natToChars m.ts ++ '\x7d' :: []))))) := by
    simp [encodeMsg, List.append_assoc]
  have hpn := parseNum_natToChars m.ts '\x7d' [] (by decide)
  rw [parseMsgLine, hshape]
  simp only [dropLit_append, parseStrBody_encode, hpn]
  simp

theorem splitNL_append (xs rest : Str) (h : '\n' ∉ xs) :
    splitNL (xs ++ '\n' :: rest) = xs :: splitNL rest := by
  induction xs with
  | nil => simp [splitNL]
  | cons c cs ih =>
    have hc : ¬ c = '\n' := fun e => h (by simp [e])
    have h2 : '\n' ∉ cs := fun hm => h (List.mem_cons_of_mem _ hm)
    rw [List.cons_append, splitNL, if_neg hc, ih h2]

theorem splitNL_no_newline (l : Str) (h : '\n' ∉ l) : splitNL l = [l] := by
  induction l with
  | nil => simp [splitNL]
  | cons c cs ih =>
    have hc : ¬ c = '\n' := fun e => h (by simp [e])
    have h2 : '\n' ∉ cs := fun hm => h (List.mem_cons_of_mem _ hm)
    rw [splitNL, if_neg hc, ih h2]

theorem parseRecord_encode (t : Nat) (m : Msg) : parseRecord t (encodeMsg m) = some m := by
  rw [parseRecord, parseMsgLine_encode]

theorem encodeMsg_ne_nil (m : Msg) : encodeMsg m ≠ [] := by
  rw [encodeMsg_shape]
  simp

theorem loadLines_cons_msg (t : Nat) (m : Msg) (ls : List Str) :
    loadLines t (encodeMsg m :: ls) = m :: loadLines t ls := by
  rw [loadLines, stripStr_encodeMsg]
  rw [if_neg (encodeMsg_ne_nil m), parseRecord_encode]

theorem loadFile_logOf_append (t : Nat) (adds : List Msg) (tail : Str)
    (htail : '\n' ∉ tail)
    (hbad : stripStr tail = [] ∨ parseRecord t (stripStr tail) = none) :
    loadFile t (logOf adds ++ tail) = adds := by
  induction adds with
  | nil =>
    rw [logOf, List.nil_append, loadFile, splitNL_no_newline tail htail]
    rcases hbad with hb | hb
    · rw [loadLines, if_pos hb, loadLines]
    · by_cases he : stripStr tail = []
      · rw [loadLines, if_pos he, loadLines]
      · rw [loadLines, if_neg he, hb, loadLines]
  | cons m rest ih =>
    rw [logOf, loadFile, List.append_assoc, List.cons_append]
    rw [splitNL_append _ _ (encodeMsg_no_newline m)]
    rw [loadLines_cons_msg]
    rw [← loadFile]
    rw [ih]

theorem loadFile_logOf (t : Nat) (adds : List Msg) :
    loadFile t (logOf adds) = adds := by
  have := loadFile_logOf_append t adds [] (by simp) (Or.inl (by rfl))
  simpa using this

theorem storeLookup_append_self (fs : List (Str × Str)) (k chunk : Str) :
    storeLookup (storeAppendFile fs k chunk) k
      = some (((storeLookup fs k).getD []) ++ chunk) := by
  induction fs with
  | nil => simp [storeAppendFile, storeLookup]
  | cons p rest ih =>
    obtain ⟨k2, v⟩ := p
    by_cases h : k2 = k
    · subst h
      rw [storeAppendFile, if_pos rfl, storeLookup, if_pos rfl, storeLookup, if_pos rfl]
      simp
    · rw [storeAppendFile, if_neg h, storeLookup, if_neg h, storeLookup, if_neg h, ih]

theorem chatMemoryInit_no_file (sid genId dir : Str) (t : Nat) (st : Store)
    (h : storeLookup st.files (sessionPath dir sid) = none) :
    chatMemoryInit (some sid) genId dir t st
      = (ChatMemory.mk dir sid (sessionPath dir sid) [],
         Store.mk (storeInsertDir st.dirs dir) st.files) := by
  simp [chatMemoryInit, h]

theorem chatMemoryInit_with_file (sid genId dir : Str) (t : Nat) (st : Store)
    (content : Str)
    (h : storeLookup st.files (sessionPath dir sid) = some content) :
    chatMemoryInit (some sid) genId dir t st
      = (ChatMemory.mk dir sid (sessionPath dir sid) (loadFile t content),
         Store.mk (storeInsertDir st.dirs dir) st.files) := by
  simp [chatMemoryInit, h]

theorem runAdds_cons (a : Msg) (adds : List Msg) : ∀ (mem : ChatMemory) (st : Store),
    (runAdds (a :: adds) (mem, st)).1.storageDir = mem.storageDir ∧
    (runAdds (a :: adds) (mem, st)).1.sessionId = mem.sessionId ∧
    (runAdds (a :: adds) (mem, st)).1.filepath = mem.filepath ∧
    (runAdds (a :: adds) (mem, st)).1.messages = mem.messages ++ (a :: adds) ∧
    (runAdds (a :: adds) (mem, st)).2.dirs = st.dirs ∧
    storeLookup (runAdds (a :: adds) (mem, st)).2.files mem.filepath
      = some ((storeLookup st.files mem.filepath).getD [] ++ logOf (a :: adds)) := by
  induction adds generalizing a with
  | nil =>
    intro mem st
    refine ⟨rfl, rfl, rfl, rfl, rfl, ?_⟩
    show storeLookup (storeAppendFile st.files mem.filepath
      (encodeMsg (Msg.mk a.role a.content a.ts) ++ ['\n'])) mem.filepath = _
    rw [storeLookup_append_self]
    simp [logOf]
  | cons b rest ih =>
    intro mem st
    have hstep : runAdds (a :: b :: rest) (mem, st)
        = runAdds (b :: rest)
            ((ChatMemory.add mem st a.role a.content a.ts).1,
             (ChatMemory.add mem st a.role a.content a.ts).2) := by
      simp [runAdds]
    rw [hstep]
    obtain ⟨e1, e2, e3, e4, e5, e6⟩ :=
      ih b (ChatMemory.add mem st a.role a.content a.ts).1
        (ChatMemory.add mem st a.role a.content a.ts).2
    have hfp : (ChatMemory.add mem st a.role a.content a.ts).1.filepath = mem.filepath := rfl
    have hmsgs : (ChatMemory.add mem st a.role a.content a.ts).1.messages
        = mem.messages ++ [a] := rfl
    have hlook : storeLookup (ChatMemory.add mem st a.role a.content a.ts).2.files mem.filepath
        = some ((storeLookup st.files mem.filepath).getD [] ++ (encodeMsg a ++ ['\n'])) := by
      show storeLookup (storeAppendFile st.files mem.filepath
        (encodeMsg (Msg.mk a.role a.content a.ts) ++ ['\n'])) mem.filepath = _
      rw [storeLookup_append_self]
    refine ⟨e1, e2, by rw [e3, hfp], by rw [e4, hmsgs]; simp, e5, ?_⟩
    rw [hfp] at e6
    rw [e6, hlook]
    simp [logOf, List.append_assoc]

theorem mem_storeInsertDir (dirs : List Str) (d : Str) : d ∈ storeInsertDir dirs d := by
  unfold storeInsertDir
  split_ifs with h
  · exact h
  · simp

/-- C5: for every session, loading the on-disk log reproduces exactly the
in-memory message sequence that was appended to it, in append order; a
malformed or partial trailing line (as left by a crash mid-write) is
skipped rather than aborting the load. -/
theorem C5_log_replay_reproduces_messages (sid dir genId gid2 : Str) (t t2 : Nat)
    (adds : List Msg) (bad : Str)
    (hbad1 : '\n' ∉ bad) (hbad2 : parseRecord t2 (stripStr bad) = none) :
    (runAdds adds (chatMemoryInit (some sid) genId dir t (Store.mk [] []))).1.messages = adds
    ∧ (chatMemoryInit (some sid) gid2 dir t2
        (runAdds adds (chatMemoryInit (some sid) genId dir t (Store.mk [] []))).2).1.messages
      = adds
    ∧ (chatMemoryInit (some sid) gid2 dir t2
        (Store.mk
          (runAdds adds (chatMemoryInit (some sid) genId dir t (Store.mk [] []))).2.dirs
          (storeAppendFile
            (runAdds adds (chatMemoryInit (some sid) genId dir t (Store.mk [] []))).2.files
            (runAdds adds (chatMemoryInit (some sid) genId dir t (Store.mk [] []))).1.filepath
            bad))).1.messages = adds := by
  have h0 := chatMemoryInit_no_file sid genId dir t (Store.mk [] []) rfl
  rw [h0]
  cases adds with
  | nil =>
    simp only [runAdds, List.foldl_nil]
    refine ⟨trivial, ?_, ?_⟩
    · rw [chatMemoryInit_no_file sid gid2 dir t2
        (Store.mk (storeInsertDir [] dir) []) rfl]
    · have hl : storeLookup (storeAppendFile [] (sessionPath dir sid) bad)
          (sessionPath dir sid) = some bad := by
        rw [storeLookup_append_self]
        rfl
      rw [chatMemoryInit_with_file sid gid2 dir t2 _ bad hl]
      have := loadFile_logOf_append t2 [] bad hbad1 (Or.inr hbad2)
      simpa [logOf] using this
  | cons a rest =>
    obtain ⟨e1, e2, e3, e4, e5, e6⟩ :=
      runAdds_cons a rest (ChatMemory.mk dir sid (sessionPath dir sid) [])
        (Store.mk (storeInsertDir [] dir) [])
    have hlook : storeLookup
        (runAdds (a :: rest) (ChatMemory.mk dir sid (sessionPath dir sid) [],
          Store.mk (storeInsertDir [] dir) [])).2.files (sessionPath dir sid)
        = some (logOf (a :: rest)) := by
      rw [e6]
      rfl
    refine ⟨by rw [e4]; simp, ?_, ?_⟩
    · rw [chatMemoryInit_with_file sid gid2 dir t2 _ _ hlook]
      exact loadFile_logOf t2 (a :: rest)
    · have hl2 : storeLookup
          (storeAppendFile
            (runAdds (a :: rest) (ChatMemory.mk dir sid (sessionPath dir sid) [],
              Store.mk (storeInsertDir [] dir) [])).2.files
            (runAdds (a :: rest) (ChatMemory.mk dir sid (sessionPath dir sid) [],
              Store.mk (storeInsertDir [] dir) [])).1.filepath bad)
          (sessionPath dir sid) = some (logOf (a :: rest) ++ bad) := by
        rw [e3]
        rw [storeLookup_append_self, hlook]
        rfl
      rw [chatMemoryInit_with_file sid gid2 dir t2 _ _ hl2]
      exact loadFile_logOf_append t2 (a :: rest) bad hbad1 (Or.inr hbad2)

/-- Concrete witness for `C5_log_replay_reproduces_messages`. -/
theorem C5_log_replay_reproduces_messages_witness :
    ('\n' ∉ "\x7bbad".data)
    ∧ parseRecord 1 (stripStr "\x7bbad".data) = none
    ∧ ((runAdds [Msg.mk "user".data "hi".data 5]
          (chatMemoryInit (some "s".data) "g".data ".sessions".data 0
            (Store.mk [] []))).1.messages = [Msg.mk "user".data "hi".data 5]
       ∧ (chatMemoryInit (some "s".data) "g2".data ".sessions".data 1
            (runAdds [Msg.mk "user".data "hi".data 5]
              (chatMemoryInit (some "s".data) "g".data ".sessions".data 0
                (Store.mk [] []))).2).1.messages = [Msg.mk "user".data "hi".data 5]
       ∧ (chatMemoryInit (some "s".data) "g2".data ".sessions".data 1
            (Store.mk
              (runAdds [Msg.mk "user".data "hi".data 5]
                (chatMemoryInit (some "s".data) "g".data ".sessions".data 0
                  (Store.mk [] []))).2.dirs
              (storeAppendFile
                (runAdds [Msg.mk "user".data "hi".data 5]
                  (chatMemoryInit (some "s".data) "g".data ".sessions".data 0
                    (Store.mk [] []))).2.files
                (runAdds [Msg.mk "user".data "hi".data 5]
                  (chatMemoryInit (some "s".data) "g".data ".sessions".data 0
                    (Store.mk [] []))).1.filepath
                "\x7bbad".data))).1.messages = [Msg.mk "user".data "hi".data 5]) :=
  ⟨by decide, by decide,
   C5_log_replay_reproduces_messages "s".data ".sessions".data "g".data "g2".data 0 1
     [Msg.mk "user".data "hi".data 5] "\x7bbad".data (by decide) (by decide)⟩

/-- C10: opening or loading a session whose id has no existing log file
never fails: it returns a fresh session with that id and an empty message
list, creating the storage directory entry as needed. -/
theorem C10_load_missing_session (sid dir genId : Str) (t : Nat) (st : Store)
    (h : storeLookup st.files (sessionPath dir sid) = none) :
    (ChatMemory.load sid dir genId t st).1.messages = []
    ∧ (ChatMemory.load sid dir genId t st).1.sessionId = sid
    ∧ dir ∈ (ChatMemory.load sid dir genId t st).2.dirs := by
  rw [ChatMemory.load, chatMemoryInit_no_file sid genId dir t st h]
  exact ⟨rfl, rfl, mem_storeInsertDir st.dirs dir⟩

/-- Concrete witness for `C10_load_missing_session`. -/
theorem C10_load_missing_session_witness :
    storeLookup (Store.mk [] []).files (sessionPath ".sessions".data "abc".data) = none
    ∧ ((ChatMemory.load "abc".data ".sessions".data "g".data 7
          (Store.mk [] [])).1.messages = []
       ∧ (ChatMemory.load "abc".data ".sessions".data "g".data 7
            (Store.mk [] [])).1.sessionId = "abc".data
       ∧ ".sessions".data ∈ (ChatMemory.load "abc".data ".sessions".data "g".data 7
            (Store.mk [] [])).2.dirs) :=
  ⟨by decide,
   C10_load_missing_session "abc".data ".sessions".data "g".data 7 (Store.mk [] [])
     (by decide)⟩

/-! ## Process controller: `tools/shell_tool.py` -/

/-- One launched subprocess as observed by the controller: the chunks
yielded by iterating its standard output line by line, the standard error
text, and the exit code. -/
structure Proc where
  outLines : List Str
  stderrTxt : Str
  exitCode : Int
deriving DecidableEq, Repr

/-- The module-level `_interactive_process` cell: whether a process object
is stored (it is never reset to `None` once set), the pending content of
the stdin queue drained by the background writer thread, and the stored
command. -/
structure InterState where
  hasProcess : Bool
  stdinQueue : List Str
  command : Option Str
deriving DecidableEq, Repr

/-- The dictionary's initial value: all entries `None`. -/
def initialInterState : InterState := InterState.mk false [] none

/-- The fixed interactive-prompt markers (with the source's duplicate). -/
def promptMarkers : List Str :=
  ["[y/n]".data, "[y/n]".data, "press enter".data, "do you want".data, "continue?".data]

/-- `any(prompt in line.lower() for prompt in [...])`. -/
def isPromptLine (line : Str) : Bool :=
  promptMarkers.any (fun m => containsSub m (lowerStr line))

/-- The output-reading loop's prompt detection: the first line matching a
marker, `none` when the stream ends without one. -/
def scanLines : List Str → Option Str
  | [] => none
  | l :: rest => if isPromptLine l then some l else scanLines rest

/-- Truthiness of the optional `user_input` argument. -/
def optTruthy : Option Str → Bool
  | none => false
  | some s => !s.isEmpty

/-- The paused-command message returned on prompt detection. -/
def pauseMsg (command line : Str) : Str :=
  "⏸️ Command paused: `".data ++ command
    ++ "`\n\n❓ It needs user input. Detected prompt:\n```".data ++ stripStr line
    ++ "```\n👉 Please reply with what you want to enter (e.g., `y`, `n`, just `Enter`, etc.)".data

/-- The acknowledgement returned by the resume branch. -/
def ackMsg : Str := "📝 Input received. Resuming...".data

/-- `f"❌ Error:\n{stderr.strip()}"`. -/
def errMsg (stderrTxt : Str) : Str := "❌ Error:\n".data ++ stripStr stderrTxt

/-- `f"⚠️ Exception occurred: {str(e)}"`. -/
def excMsg (e : Str) : Str := "⚠️ Exception occurred: ".data ++ e

/-- `"".join(output)`. -/
def joinAll : List Str → Str
  | [] => []
  | l :: rest => l ++ joinAll rest

/-- `run_shell_command(command, user_input)`.  `launch` is the outcome of
`subprocess.Popen` for this call (a process, or the exception text when the
launch fails); it is consumed only when a new process is actually started.
The function is total: every path returns a string, as the controller never
lets an exception cross its boundary (the `try` wraps the whole body). -/
def run_shell_command (st : InterState) (launch : Except Str Proc) (command : Str)
    (userInput : Option Str) : Str × InterState :=
  if optTruthy userInput && st.hasProcess then
    (ackMsg, { st with stdinQueue := st.stdinQueue ++ [userInput.getD [] ++ ['\n']] })
  else
    match launch with
    | .error e => (excMsg e, st)
    | .ok proc =>
      let st1 : InterState := InterState.mk true [] (some command)
      match scanLines proc.outLines with
      | some line => (pauseMsg command line, st1)
      | none =>
        if proc.exitCode ≠ 0 then (errMsg proc.stderrTxt, st1)
        else (stripStr (joinAll proc.outLines), st1)

/-- How the loop bodies call the controller: `args.get("command")` may be
`None`.  The resume branch fires before the `try`, so a truthy
`user_input` with a stored process returns the acknowledgement regardless
of the command; otherwise `subprocess.Popen(None, shell=True)` raises
inside the `try` and the exception text is returned. -/
def run_shell_command_opt (st : InterState) (launch : Except Str Proc)
    (command : Option Str) (userInput : Option Str) : Str × InterState :=
  if optTruthy userInput && st.hasProcess then
    (ackMsg, { st with stdinQueue := st.stdinQueue ++ [userInput.getD [] ++ ['\n']] })
  else
    match command with
    | none => (excMsg "expected str, bytes or os.PathLike object, not NoneType".data, st)
    | some c => run_shell_command st launch c userInput

theorem scanLines_first (pre : List Str) (line : Str) (post : List Str)
    (hpre : ∀ l ∈ pre, isPromptLine l = false) (hline : isPromptLine line = true) :
    scanLines (pre ++ line :: post) = some line := by
  induction pre with
  | nil => simp [scanLines, hline]
  | cons p rest ih =>
    rw [List.cons_append, scanLines, if_neg]
    · exact ih (fun l hl => hpre l (List.mem_cons_of_mem _ hl))
    · rw [hpre p (List.mem_cons_self _ _)]
      exact Bool.false_ne_true

/-- C3 (amended): a command whose output contains a marker-matching line
pauses at the first such line and returns a result describing the prompt
and the original command; a subsequent call with input text enqueues that
text plus a newline for the background writer and returns only the fixed
acknowledgement; and there is no further-read path — a further run with no
input consumes a fresh process launch, with an outcome independent of the
stored interactive state, so the paused process's remaining output is never
captured. -/
theorem C3_pause_resume_no_further_read (st0 st2 st3 : InterState) (proc proc2 : Proc)
    (cmd cmd2 cmd3 : Str) (launch2 : Except Str Proc) (pre post : List Str)
    (line : Str) (s : Str)
    (hpre : ∀ l ∈ pre, isPromptLine l = false) (hline : isPromptLine line = true)
    (hlines : proc.outLines = pre ++ line :: post) (hs : s ≠ []) :
    run_shell_command st0 (.ok proc) cmd none
      = (pauseMsg cmd line, InterState.mk true [] (some cmd))
    ∧ run_shell_command (InterState.mk true [] (some cmd)) launch2 cmd3 (some s)
      = (ackMsg, InterState.mk true [s ++ ['\n']] (some cmd))
    ∧ run_shell_command st2 (.ok proc2) cmd2 none
      = run_shell_command st3 (.ok proc2) cmd2 none := by
  refine ⟨?_, ?_, rfl⟩
  · simp only [run_shell_command, hlines,
      scanLines_first pre line post hpre hline]
    simp [optTruthy]
  · have ht : optTruthy (some s) = true := by
      simp [optTruthy, hs]
    simp [run_shell_command, ht]

/-- Concrete witness for `C3_pause_resume_no_further_read`. -/
theorem C3_pause_resume_no_further_read_witness :
    ((∀ l ∈ ([] : List Str), isPromptLine l = false)
     ∧ isPromptLine "Continue? [y/n]\n".data = true
     ∧ (Proc.mk ["Continue? [y/n]\n".data, "done\n".data] [] 0).outLines
        = [] ++ "Continue? [y/n]\n".data :: ["done\n".data]
     ∧ "y".data ≠ ([] : Str))
    ∧ (run_shell_command initialInterState
        (.ok (Proc.mk ["Continue? [y/n]\n".data, "done\n".data] [] 0))
        "./install.sh".data none
       = (pauseMsg "./install.sh".data "Continue? [y/n]\n".data,
          InterState.mk true [] (some "./install.sh".data))
      ∧ run_shell_command (InterState.mk true [] (some "./install.sh".data))
          (.ok (Proc.mk ["Continue? [y/n]\n".data, "done\n".data] [] 0))
          "./install.sh".data (some "y".data)
        = (ackMsg, InterState.mk true ["y".data ++ ['\n']] (some "./install.sh".data))
      ∧ run_shell_command initialInterState
          (.ok (Proc.mk ["Continue? [y/n]\n".data, "done\n".data] [] 0))
          "./install.sh".data none
        = run_shell_command (InterState.mk true ["y\n".data] (some "./install.sh".data))
            (.ok (Proc.mk ["Continue? [y/n]\n".data, "done\n".data] [] 0))
            "./install.sh".data none) :=
  ⟨⟨by decide, by decide, by decide, by decide⟩,
   C3_pause_resume_no_further_read initialInterState initialInterState
     (InterState.mk true ["y\n".data] (some "./install.sh".data))
     (Proc.mk ["Continue? [y/n]\n".data, "done\n".data] [] 0)
     (Proc.mk ["Continue? [y/n]\n".data, "done\n".data] [] 0)
     "./install.sh".data "./install.sh".data "./install.sh".data
     (.ok (Proc.mk ["Continue? [y/n]\n".data, "done\n".data] [] 0))
     [] ["done\n".data] "Continue? [y/n]\n".data "y".data
     (by decide) (by decide) (by decide) (by decide)⟩

set_option maxRecDepth 8192 in
/-- C3 counterexample: with the spec's own scenario (first output line
"Continue? [y/n]", remaining output "done", exit 0), the pause and the
resume acknowledgement happen, but a further read does not yield completion
with the captured remaining output: it re-runs the command, pauses at the
prompt again, and the remaining output never appears in any result. -/
theorem C3_counterexample_no_remaining_output :
    (run_shell_command initialInterState
        (.ok (Proc.mk ["Continue? [y/n]\n".data, "done\n".data] [] 0))
        "./install.sh".data none).1
      = pauseMsg "./install.sh".data "Continue? [y/n]\n".data
    ∧ (run_shell_command (run_shell_command initialInterState
          (.ok (Proc.mk ["Continue? [y/n]\n".data, "done\n".data] [] 0))
          "./install.sh".data none).2
        (.ok (Proc.mk ["Continue? [y/n]\n".data, "done\n".data] [] 0))
        "./install.sh".data (some "y".data)).1 = ackMsg
    ∧ (run_shell_command (run_shell_command (run_shell_command initialInterState
          (.ok (Proc.mk ["Continue? [y/n]\n".data, "done\n".data] [] 0))
          "./install.sh".data none).2
          (.ok (Proc.mk ["Continue? [y/n]\n".data, "done\n".data] [] 0))
          "./install.sh".data (some "y".data)).2
        (.ok (Proc.mk ["Continue? [y/n]\n".data, "done\n".data] [] 0))
        "./install.sh".data none).1
      = pauseMsg "./install.sh".data "Continue? [y/n]\n".data
    ∧ containsSub "done".data
        (run_shell_command (run_shell_command (run_shell_command initialInterState
            (.ok (Proc.mk ["Continue? [y/n]\n".data, "done\n".data] [] 0))
            "./install.sh".data none).2
            (.ok (Proc.mk ["Continue? [y/n]\n".data, "done\n".data] [] 0))
            "./install.sh".data (some "y".data)).2
          (.ok (Proc.mk ["Continue? [y/n]\n".data, "done\n".data] [] 0))
          "./install.sh".data none).1 = false := by
  decide

/-- C8: for a run that reaches end-of-stream without pausing, a non-zero
exit yields the stripped captured stderr as a failure message, a zero exit
yields the concatenated stdout; a launch failure is returned as a textual
error result.  `run_shell_command` is a total function into strings: no
path raises past the controller boundary. -/
theorem C8_batch_and_launch_failure (st : InterState) (proc : Proc) (cmd e : Str)
    (hnoprompt : scanLines proc.outLines = none) :
    (proc.exitCode ≠ 0 →
      run_shell_command st (.ok proc) cmd none
        = (errMsg proc.stderrTxt, InterState.mk true [] (some cmd)))
    ∧ (proc.exitCode = 0 →
      run_shell_command st (.ok proc) cmd none
        = (stripStr (joinAll proc.outLines), InterState.mk true [] (some cmd)))
    ∧ run_shell_command st (.error e) cmd none = (excMsg e, st) := by
  refine ⟨?_, ?_, rfl⟩
  · intro hne
    simp [run_shell_command, optTruthy, hnoprompt, hne]
  · intro heq
    simp [run_shell_command, optTruthy, hnoprompt, heq]

/-- Concrete witness for `C8_batch_and_launch_failure`. -/
theorem C8_batch_and_launch_failure_witness :
    scanLines (Proc.mk ["all good\n".data] "tail: boom".data 1).outLines = none
    ∧ run_shell_command initialInterState
        (.ok (Proc.mk ["all good\n".data] "tail: boom".data 1)) "ls".data none
      = (errMsg "tail: boom".data, InterState.mk true [] (some "ls".data))
    ∧ run_shell_command initialInterState
        (.error "No such file or directory".data) "nosuch".data none
      = (excMsg "No such file or directory".data, initialInterState) :=
  ⟨by decide,
   (C8_batch_and_launch_failure initialInterState
      (Proc.mk ["all good\n".data] "tail: boom".data 1) "ls".data
      "No such file or directory".data (by decide)).1 (by decide),
   (C8_batch_and_launch_failure initialInterState
      (Proc.mk ["all good\n".data] "tail: boom".data 1) "nosuch".data
      "No such file or directory".data (by decide)).2.2⟩

/-! ## File tools: `tools/file_tools.py` (+ `build/lib/tools/file_tools.py`) -/

/-- The file system seen by the file tools: file contents by path, plus the
set of directories (created implicitly by writes). -/
structure FileSys where
  files : List (Str × Str)
  dirs : List Str
deriving DecidableEq

/-- `os.path.dirname`: the part of the path before its last separator. -/
def dirnameOf (path : Str) : Str :=
  ((path.reverse.dropWhile (fun c => c ≠ '/')).drop 1).reverse

/-- Create or overwrite one file's content. -/
def fsWrite (fs : List (Str × Str)) (path content : Str) : List (Str × Str) :=
  match fs with
  | [] => [(path, content)]
  | (k, v) :: rest =>
    if k = path then (k, content) :: rest
    else (k, v) :: fsWrite rest path content

/-- `write_file(path, content)`: make the parent directory if needed, write
the file, report success (the I/O-exception branch is outside the model —
writes to the modelled file system always succeed). -/
def write_file (fs : FileSys) (path content : Str) : Str × FileSys :=
  let d := dirnameOf path
  let fs1 := if d.isEmpty then fs else { fs with dirs := storeInsertDir fs.dirs d }
  ("✅ File written successfully at: ".data ++ path,
   { fs1 with files := fsWrite fs1.files path content })

/-- One entry of a `files` argument: a JSON object whose `path`/`content`
keys may be absent (`dict.get` yields `None`). -/
structure FileEntry where
  path : Option Str
  content : Option Str
deriving DecidableEq, Repr

/-- Python `repr` of an optional string value. -/
def reprOptStr : Option Str → Str
  | none => "None".data
  | some s => '\'' :: (s ++ ['\''])

/-- Python `repr` of a `files` entry dictionary. -/
def reprEntry (e : FileEntry) : Str :=
  "\x7b'path': ".data ++ reprOptStr e.path ++ ", 'content': ".data
    ++ reprOptStr e.content ++ "\x7d".data

/-- Join a list of strings with a separator (Python `sep.join`). -/
def joinSep (sep : Str) : List Str → Str
  | [] => []
  | [l] => l
  | l :: rest => l ++ sep ++ joinSep sep rest

/-- The body of the `write_files` loop for one entry. -/
def writeFilesStep (fs : FileSys) (e : FileEntry) : Str × FileSys :=
  match e.path, e.content with
  | some p, some c =>
    if p.isEmpty then ("❌ Invalid file entry: ".data ++ reprEntry e, fs)
    else
      let d := dirnameOf p
      let fs1 := if d.isEmpty then fs else { fs with dirs := storeInsertDir fs.dirs d }
      ("✅ File written: ".data ++ p, { fs1 with files := fsWrite fs1.files p c })
  | _, _ => ("❌ Invalid file entry: ".data ++ reprEntry e, fs)

/-- The `write_files` loop over its entries, accumulating result lines. -/
def writeFilesGo (fs : FileSys) (acc : List Str) : List FileEntry → List Str × FileSys
  | [] => (acc.reverse, fs)
  | e :: rest =>
    let p := writeFilesStep fs e
    writeFilesGo p.2 (p.1 :: acc) rest

/-- `write_files(files)`: write each entry, collecting one result line per
entry, joined with newlines. -/
def write_files (fs : FileSys) (entries : List FileEntry) : Str × FileSys :=
  let p := writeFilesGo fs [] entries
  (joinSep ['\n'] p.1, p.2)

/-- The success message of `edit_file`. -/
def editOkMsg (path mode : Str) : Str :=
  "✅ File edited successfully: ".data ++ path ++ " (mode: ".data ++ mode ++ ")".data

/-- The warning returned by `edit_file` for an unknown mode. -/
def editInvalidModeMsg (mode : Str) : Str :=
  "⚠️ Invalid mode: ".data ++ mode ++ ". Use 'append', 'prepend', or 'replace'.".data

/-- `edit_file(path, new_content, mode="append")`: refuse when the file
does not exist; read it; replace, prepend or append; any other mode
returns a warning before anything is written. -/
def edit_file (fs : FileSys) (path newContent mode : Str) : Str × FileSys :=
  match storeLookup fs.files path with
  | none => ("❌ File does not exist: ".data ++ path, fs)
  | some current =>
    if mode = "replace".data then
      (editOkMsg path mode, { fs with files := fsWrite fs.files path newContent })
    else if mode = "prepend".data then
      (editOkMsg path mode,
       { fs with files := fsWrite fs.files path (newContent ++ '\n' :: current) })
    else if mode = "append".data then
      (editOkMsg path mode,
       { fs with files := fsWrite fs.files path (current ++ '\n' :: newContent) })
    else (editInvalidModeMsg mode, fs)

/-- `str(e)` for the `FileNotFoundError` raised by `open` on a missing
path. -/
def fileNotFoundExc (path : Str) : Str :=
  "[Errno 2] No such file or directory: '".data ++ path ++ "'".data

/-- `read_file(path)`: content on success, a textual failure otherwise. -/
def read_file (fs : FileSys) (path : Str) : Str :=
  match storeLookup fs.files path with
  | some content => "📄 Content of ".data ++ path ++ ":\n".data ++ content
  | none => "❌ Failed to read ".data ++ path ++ ": ".data ++ fileNotFoundExc path

/-- `read_files(paths)`: one section per path, joined by blank lines. -/
def read_files (fs : FileSys) (paths : List Str) : Str :=
  joinSep "\n\n".data (paths.map (fun p =>
    match storeLookup fs.files p with
    | some content => "📄 ".data ++ p ++ ":\n".data ++ content
    | none => "❌ Failed to read ".data ++ p ++ ": ".data ++ fileNotFoundExc p))

/-- C9: `edit_file` changes the target file system only on success — a
missing file or an unrecognized mode yields an error/warning string and
leaves the file system (files and directories) unchanged. -/
theorem C9_edit_file_error_frame (fs : FileSys) (path newContent mode : Str) :
    (storeLookup fs.files path = none →
      edit_file fs path newContent mode
        = ("❌ File does not exist: ".data ++ path, fs))
    ∧ (∀ current, storeLookup fs.files path = some current →
        mode ≠ "replace".data → mode ≠ "prepend".data → mode ≠ "append".data →
        edit_file fs path newContent mode = (editInvalidModeMsg mode, fs)) := by
  constructor
  · intro h
    simp [edit_file, h]
  · intro current h hreplace hprepend happend
    simp [edit_file, h, hreplace, hprepend, happend]

/-- Concrete witness for `C9_edit_file_error_frame`. -/
theorem C9_edit_file_error_frame_witness :
    (storeLookup (FileSys.mk [] []).files "missing.py".data = none
     ∧ edit_file (FileSys.mk [] []) "missing.py".data "x = 1".data "append".data
        = ("❌ File does not exist: ".data ++ "missing.py".data, FileSys.mk [] []))
    ∧ (storeLookup (FileSys.mk [("a.py".data, "pass".data)] []).files "a.py".data
        = some "pass".data
       ∧ edit_file (FileSys.mk [("a.py".data, "pass".data)] []) "a.py".data
          "x = 1".data "overwrite".data
        = (editInvalidModeMsg "overwrite".data,
           FileSys.mk [("a.py".data, "pass".data)] [])) :=
  ⟨⟨by decide,
    (C9_edit_file_error_frame (FileSys.mk [] []) "missing.py".data "x = 1".data
      "append".data).1 (by decide)⟩,
   ⟨by decide,
    (C9_edit_file_error_frame (FileSys.mk [("a.py".data, "pass".data)] [])
      "a.py".data "x = 1".data "overwrite".data).2 "pass".data
      (by decide) (by decide) (by decide) (by decide)⟩⟩

/-! ## Code execution tools: `tools/code_runner.py`, `run_python_file` -/

/-- `os.path.splitext(path)[1]`: the extension from the last dot of the
final path component. -/
def extOf (path : Str) : Str :=
  let rev := path.reverse
  let pre := rev.takeWhile (fun c => !(c = '.' || c = '/'))
  match rev.drop pre.length with
  | '.' :: _ => '.' :: pre.reverse
  | _ => []

/-- Outcome of one `subprocess.run(argv, input=...)`: return code, captured
stdout and captured stderr, supplied by the execution environment. -/
abbrev ExecOracle := List Str → Option Str → Int × Str × Str

/-- Drop a trailing `.cpp` (the effect of `path.replace(".cpp", "")` on a
path whose only occurrence of `.cpp` is its extension). -/
def dropCppExt (path : Str) : Str :=
  if path.reverse.take 4 = ".cpp".data.reverse then path.take (path.length - 4) else path

/-- The shared result formatting of `run_code_file`. -/
def codeRunOutcome (r : Int × Str × Str) : Str :=
  if r.1 = 0 then "✅ Output:\n".data ++ r.2.1 else "❌ Error:\n".data ++ r.2.2

/-- `run_code_file(path, inputs)`: dispatch on the extension, run the
interpreter (or compile then run for C++), and format output or error. -/
def run_code_file (ex : ExecOracle) (path : Str) (inputs : Option (List Str)) : Str :=
  let ext := extOf path
  let inputData : Option Str :=
    match inputs with
    | none => none
    | some l => if l.isEmpty then none else some (joinSep ['\n'] l)
  if ext = ".py".data then
    codeRunOutcome (ex ["python3".data, path] inputData)
  else if ext = ".sh".data then
    codeRunOutcome (ex ["bash".data, path] inputData)
  else if ext = ".cpp".data then
    let binaryPath := dropCppExt path
    let compileRes := ex ["g++".data, path, "-o".data, binaryPath] none
    if compileRes.1 ≠ 0 then "❌ Compilation failed:\n".data ++ compileRes.2.2
    else codeRunOutcome (ex ["./".data ++ binaryPath] inputData)
  else "❌ Unsupported file type: ".data ++ ext

/-- Modelled from the spec: `run_python_file` is the registry's Python-file
execution capability; its definition is in the built distribution's
`tools/shell_tool.py`, which is absent from the source tree, so the spec
only fixes that it runs a Python file with optional inputs and returns a
textual result — here supplied by an environment oracle. -/
abbrev PyRunOracle := Str → Option (List Str) → Str

/-- Modelled from the spec: see `PyRunOracle`. -/
def run_python_file (py : PyRunOracle) (path : Str) (inputs : Option (List Str)) : Str :=
  py path inputs

/-! ## Project generator: `tools/project_generator.py` -/

/-- `os.path.join(a, b)` for a relative `b`: `b` itself when `a` is empty,
otherwise the two joined by one separator. -/
def osJoin (a b : Str) : Str := if a.isEmpty then b else a ++ '/' :: b

/-- The `generate_project_structure` loop: one file per entry under the
base folder; an entry without a `path` key raises `KeyError` (`none`). -/
def gpsLoop (fs : FileSys) (folderName : Str) :
    List FileEntry → List Str → Option (List Str × FileSys)
  | [], acc => some (acc.reverse, fs)
  | e :: rest, acc =>
    match e.path with
    | none => none
    | some p =>
      let fp := osJoin folderName p
      let fs1 : FileSys := { fs with dirs := storeInsertDir fs.dirs (dirnameOf fp) }
      let fs2 : FileSys := { fs1 with files := fsWrite fs1.files fp (e.content.getD []) }
      gpsLoop fs2 folderName rest (fp :: acc)

/-- `generate_project_structure(folder_name, files)`: make the base folder,
create each file, and return the result dictionary (message and created
paths).  `none` models an uncaught exception: `os.makedirs("")` raises
`FileNotFoundError` for an empty folder name, and an entry with no `path`
key raises `KeyError`. -/
def generate_project_structure (fs : FileSys) (folderName : Str)
    (files : List FileEntry) : Option ((Str × List Str) × FileSys) :=
  if folderName.isEmpty then none
  else
    let fs0 : FileSys := { fs with dirs := storeInsertDir fs.dirs folderName }
    (gpsLoop fs0 folderName files []).map
      (fun p => (("Project structure created".data, p.1), p.2))

/-- `str(result)` for the returned dictionary. -/
def renderDictResult (r : Str × List Str) : Str :=
  "\x7b'message': '".data ++ r.1 ++ "', 'paths': [".data
    ++ joinSep ", ".data (r.2.map (fun p => '\'' :: (p ++ ['\'']))) ++ "]\x7d".data

/-! ## Tool dispatch loops: `main.py` -/

/-- Structured payload of `json.loads(tool_call.function.arguments)` for
the registry's tools: every possibly-used key, each optional because
`args.get(...)` may find it absent. -/
structure ArgVals where
  path : Option Str := none
  content : Option Str := none
  files : Option (List FileEntry) := none
  command : Option Str := none
  userInput : Option Str := none
  mode : Option Str := none
  newContent : Option Str := none
  paths : Option (List Str) := none
  inputs : Option (List Str) := none
  folderName : Option Str := none
  extra : List Str := []
deriving DecidableEq, Repr

/-- The key names present in a parsed argument payload (the canonical keys
that are bound, in a fixed order, followed by any unexpected keys).  A
`f(**args)` call binds exactly these names, so it raises `TypeError`
unless they fall inside `f`'s parameter list and cover its required
parameters. -/
def presentKeys (a : ArgVals) : List Str :=
  (if a.path.isSome then ["path".data] else [])
    ++ (if a.content.isSome then ["content".data] else [])
    ++ (if a.files.isSome then ["files".data] else [])
    ++ (if a.command.isSome then ["command".data] else [])
    ++ (if a.userInput.isSome then ["user_input".data] else [])
    ++ (if a.mode.isSome then ["mode".data] else [])
    ++ (if a.newContent.isSome then ["new_content".data] else [])
    ++ (if a.paths.isSome then ["paths".data] else [])
    ++ (if a.inputs.isSome then ["inputs".data] else [])
    ++ (if a.folderName.isSome then ["folder_name".data] else [])
    ++ a.extra

/-- Every present key falls inside a parameter list (no unexpected
keyword argument). -/
def keysSubset (pres accepted : List Str) : Bool :=
  pres.all (fun k => accepted.contains k)

/-- One `ToolCallRequest` from the model: `args = none` models arguments
whose text fails `json.loads` (the parse raises); `args.extra` lists any
keys of the parsed object beyond the modelled ones. -/
structure ToolCall where
  id : Str
  name : Str
  args : Option ArgVals
deriving DecidableEq, Repr

/-- The full environment threaded through a dispatch-loop run: the file
system, the interactive-process cell, and the oracles supplying subprocess
outcomes. -/
structure World where
  fs : FileSys
  inter : InterState
  shellLaunch : Str → Except Str Proc
  exec : ExecOracle
  py : PyRunOracle

/-- The tool-name dispatch of the loop bodies in `run_repl_loop` and
`run_multi_agent_session` (the two are textually identical): match the name
against the fixed branches, run the tool, and return its textual result;
an unrecognized name yields the unknown-tool text.  `none` models an
uncaught exception: `json.loads` failing on the arguments, a `f(**args)`
call whose bound keys miss a required parameter or carry an unexpected
one, or a fault inside the tool (`generate_project_structure` on an empty
folder name or an entry with no path).  Only `run_shell_command` is called
with explicit keywords taken via `args.get`, so it never faults on the
payload's shape. -/
def dispatchTool (w : World) (name : Str) (argsOpt : Option ArgVals) :
    Option (Str × World) :=
  match argsOpt with
  | none => none
  | some args =>
    if name = "write_file".data then
      match args.path, args.content with
      | some p, some c =>
        if keysSubset (presentKeys args) ["path".data, "content".data] then
          let r := write_file w.fs p c
          some (r.1, { w with fs := r.2 })
        else none
      | _, _ => none
    else if name = "write_files".data then
      match args.files with
      | some fl =>
        if keysSubset (presentKeys args) ["files".data] then
          let r := write_files w.fs fl
          some (r.1, { w with fs := r.2 })
        else none
      | none => none
    else if name = "run_shell_command".data then
      let r := run_shell_command_opt w.inter
        ((args.command.map w.shellLaunch).getD (Except.error [])) args.command args.userInput
      some (r.1, { w with inter := r.2 })
    else if name = "edit_file".data then
      match args.path, args.newContent with
      | some p, some nc =>
        if keysSubset (presentKeys args) ["path".data, "new_content".data, "mode".data] then
          let r := edit_file w.fs p nc (args.mode.getD "append".data)
          some (r.1, { w with fs := r.2 })
        else none
      | _, _ => none
    else if name = "read_file".data then
      match args.path with
      | some p =>
        if keysSubset (presentKeys args) ["path".data] then
          some (read_file w.fs p, w)
        else none
      | none => none
    else if name = "read_files".data then
      match args.paths with
      | some ps =>
        if keysSubset (presentKeys args) ["paths".data] then
          some (read_files w.fs ps, w)
        else none
      | none => none
    else if name = "run_python_file".data then
      match args.path with
      | some p =>
        if keysSubset (presentKeys args) ["path".data, "inputs".data] then
          some (run_python_file w.py p args.inputs, w)
        else none
      | none => none
    else if name = "run_code_file".data then
      match args.path with
      | some p =>
        if keysSubset (presentKeys args) ["path".data, "inputs".data] then
          some (run_code_file w.exec p args.inputs, w)
        else none
      | none => none
    else if name = "generate_project_structure".data then
      match args.folderName, args.files with
      | some fn, some fl =>
        if keysSubset (presentKeys args) ["folder_name".data, "files".data] then
          match generate_project_structure w.fs fn fl with
          | none => none
          | some (r, fs1) => some (renderDictResult r, { w with fs := fs1 })
        else none
      | _, _ => none
    else some ("⚠️ Unknown tool: ".data ++ name, w)

/-- One message of a dispatch-loop conversation history. -/
structure ChatMsg where
  role : Str
  content : Option Str
  toolCallId : Option Str
  toolCalls : List ToolCall
deriving DecidableEq, Repr

/-- One model response: optional content and the requested tool calls. -/
structure Reply where
  content : Option Str
  toolCalls : List ToolCall
deriving DecidableEq, Repr

/-- The tool message appended for one resolved call. -/
def toolMsg (callId result : Str) : ChatMsg :=
  ChatMsg.mk "tool".data (some result) (some callId) []

/-- The assistant message recorded when the reply carries tool calls. -/
def assistantToolMsg (r : Reply) : ChatMsg :=
  ChatMsg.mk "assistant".data r.content none r.toolCalls

/-- `reply.content or "(No reply)"`. -/
def finalContent (r : Reply) : Str :=
  match r.content with
  | none => "(No reply)".data
  | some s => if s.isEmpty then "(No reply)".data else s

/-- The final assistant message appended when no tools are requested. -/
def assistantFinalMsg (r : Reply) : ChatMsg :=
  ChatMsg.mk "assistant".data (some (finalContent r)) none []

/-- The inner `for tool_call in tool_calls` loop: dispatch each call in
request order, appending one `tool` message per call; `none` when a
dispatch raises (the fault propagates out of the whole loop). -/
def execCalls (w : World) (hist : List ChatMsg) : List ToolCall → Option (World × List ChatMsg)
  | [] => some (w, hist)
  | c :: rest =>
    match dispatchTool w c.name c.args with
    | none => none
    | some (res, w1) => execCalls w1 (hist ++ [toolMsg c.id res]) rest

/-- How a dispatch-loop invocation ended. -/
inductive LoopExit
  | done
  | connError
  | capped
deriving DecidableEq, Repr

/-- The shared shape of the three dispatch loops (`for ... in range(cap)`):
ask the model, stop on a connection error or a tool-free reply, otherwise
record the assistant message, execute the calls and loop.  The result
carries the number of model calls made; `none` is an uncaught fault. -/
def loopAux (script : Nat → Option Reply) (w : World) (hist : List ChatMsg) (i : Nat) :
    Nat → Option (LoopExit × World × List ChatMsg × Nat)
  | 0 => some (.capped, w, hist, i)
  | rem + 1 =>
    match script i with
    | none => some (.connError, w, hist, i + 1)
    | some reply =>
      if reply.toolCalls.isEmpty then
        some (.done, w, hist ++ [assistantFinalMsg reply], i + 1)
      else
        match execCalls w (hist ++ [assistantToolMsg reply]) reply.toolCalls with
        | none => none
        | some (w1, hist1) => loopAux script w1 hist1 (i + 1) rem

/-- Outcome of one dispatch-loop invocation, with the console notices the
loop itself prints for its terminal condition. -/
structure LoopResult where
  exit : LoopExit
  world : World
  hist : List ChatMsg
  modelCalls : Nat
  notices : List Str

/-- Wrap `loopAux` with a loop's iteration cap, its connection-error
notice, and its `for ... else` notice (printed exactly when the range is
exhausted without a break). -/
def runDispatchLoop (cap : Nat) (connNotice cappedNotice : List Str)
    (script : Nat → Option Reply) (w : World) (hist : List ChatMsg) : Option LoopResult :=
  (loopAux script w hist 0 cap).map (fun r =>
    LoopResult.mk r.1 r.2.1 r.2.2.1 r.2.2.2
      (match r.1 with
       | .connError => connNotice
       | .capped => cappedNotice
       | .done => []))

/-- The agent loop inside `run_repl_loop`: cap 10, and no `for ... else`
clause — reaching the cap terminates silently. -/
def replAgentLoop (script : Nat → Option Reply) (w : World) (hist : List ChatMsg) :
    Option LoopResult :=
  runDispatchLoop 10 ["Stopping due to connection error.".data] [] script w hist

/-- The Coder stage loop of `run_multi_agent_session`: cap 15, with a
max-iterations notice in its `for ... else` clause. -/
def coderLoop (script : Nat → Option Reply) (w : World) (hist : List ChatMsg) :
    Option LoopResult :=
  runDispatchLoop 15 ["Stopping due to connection error.".data]
    ["⚠️ Coder: Max iterations reached. Stopping.".data] script w hist

/-- The Reviewer stage loop of `run_multi_agent_session`: cap 8, with its
own connection-error notice and a max-iterations notice in its
`for ... else` clause. -/
def reviewerLoop (script : Nat → Option Reply) (w : World) (hist : List ChatMsg) :
    Option LoopResult :=
  runDispatchLoop 8 ["Stopping reviewer due to connection error.".data]
    ["⚠️ Reviewer: Max iterations reached. Stopping.".data] script w hist

/-- An argument payload with every key absent. -/
def wArgsEmpty : ArgVals :=
  ArgVals.mk none none none none none none none none none none []

/-- A world with empty file system, idle controller and inert oracles. -/
def defaultWorld : World :=
  World.mk (FileSys.mk [] []) initialInterState
    (fun _ => Except.error "not launched".data)
    (fun _ _ => (0, [], []))
    (fun _ _ => "ok".data)

/-- C2 (amended): a tool invocation whose arguments fail to parse is a
loop-level fault, not a tool-level error: `json.loads` raises before any
dispatch, no tool message is appended for the call, and the dispatch-loop
iteration does not continue. -/
theorem C2_parse_failure_faults_loop (w : World) (hist : List ChatMsg) (i rem : Nat)
    (script : Nat → Option Reply) (reply : Reply) (cid cname : Str)
    (restCalls : List ToolCall)
    (hresp : script i = some reply)
    (hcalls : reply.toolCalls = ToolCall.mk cid cname none :: restCalls) :
    dispatchTool w cname none = none
    ∧ execCalls w (hist ++ [assistantToolMsg reply]) reply.toolCalls = none
    ∧ loopAux script w hist i (rem + 1) = none := by
  refine ⟨rfl, ?_, ?_⟩
  · rw [hcalls]
    rfl
  · simp only [loopAux, hresp]
    have hne : reply.toolCalls.isEmpty = false := by
      rw [hcalls]
      rfl
    rw [if_neg (by simp [hne])]
    rw [hcalls]
    rfl

/-- The C2 witness's model reply: a single shell call with unparseable
arguments. -/
def replyBadArgs : Reply :=
  Reply.mk (some [])
    [ToolCall.mk "call_9".data "run_shell_command".data none]

/-- A model script that always requests `replyBadArgs`. -/
def scriptBadArgs : Nat → Option Reply := fun _ => some replyBadArgs

/-- Concrete witness for `C2_parse_failure_faults_loop`. -/
theorem C2_parse_failure_faults_loop_witness :
    (scriptBadArgs 0 = some replyBadArgs
     ∧ replyBadArgs.toolCalls
        = ToolCall.mk "call_9".data "run_shell_command".data none :: [])
    ∧ (dispatchTool defaultWorld "run_shell_command".data none = none
       ∧ execCalls defaultWorld ([] ++ [assistantToolMsg replyBadArgs])
           replyBadArgs.toolCalls = none
       ∧ loopAux scriptBadArgs defaultWorld [] 0 (9 + 1) = none) :=
  ⟨⟨rfl, by decide⟩,
   C2_parse_failure_faults_loop defaultWorld [] 0 9 scriptBadArgs replyBadArgs
     "call_9".data "run_shell_command".data [] rfl (by decide)⟩

/-- C2 counterexample: with a model reply whose only call has unparseable
arguments, a full dispatch-loop invocation faults (`none`): the error text
does not become the call's tool result and the loop does not continue. -/
theorem C2_counterexample_parse_error_not_tool_result :
    loopAux scriptBadArgs defaultWorld [] 0 10 = none := rfl

theorem loopAux_calls_le (script : Nat → Option Reply) :
    ∀ (cap i : Nat) (w : World) (hist : List ChatMsg) r,
      loopAux script w hist i cap = some r → r.2.2.2 ≤ i + cap := by
  intro cap
  induction cap with
  | zero =>
    intro i w hist r h
    obtain rfl := Option.some.inj h
    simp
  | succ n ih =>
    intro i w hist r h
    cases hs : script i with
    | none =>
      simp only [loopAux, hs] at h
      obtain rfl := Option.some.inj h
      simp
    | some reply =>
      simp only [loopAux, hs] at h
      by_cases he : reply.toolCalls.isEmpty
      · rw [if_pos he] at h
        obtain rfl := Option.some.inj h
        simp
      · rw [if_neg he] at h
        cases hex : execCalls w (hist ++ [assistantToolMsg reply]) reply.toolCalls with
        | none =>
          rw [hex] at h
          simp at h
        | some p =>
          rw [hex] at h
          have := ih (i + 1) p.1 p.2 r h
          omega

/-- C4 (amended): every dispatch loop makes at most its cap's worth of
model calls and, at the cap, stops looping without raising; the Coder and
Reviewer loops report the max-iterations condition with a distinct console
notice, while the top-level REPL agent loop (which has no `for ... else`
clause) terminates silently, reporting nothing. -/
theorem C4_caps_and_reports (script : Nat → Option Reply) (w : World)
    (hist : List ChatMsg) :
    (∀ r, replAgentLoop script w hist = some r →
        r.modelCalls ≤ 10 ∧ (r.exit = .capped → r.notices = []))
    ∧ (∀ r, coderLoop script w hist = some r →
        r.modelCalls ≤ 15 ∧ (r.exit = .capped →
          r.notices = ["⚠️ Coder: Max iterations reached. Stopping.".data]))
    ∧ (∀ r, reviewerLoop script w hist = some r →
        r.modelCalls ≤ 8 ∧ (r.exit = .capped →
          r.notices = ["⚠️ Reviewer: Max iterations reached. Stopping.".data])) := by
  refine ⟨?_, ?_, ?_⟩ <;> intro r h <;>
    simp only [replAgentLoop, coderLoop, reviewerLoop, runDispatchLoop] at h
  · cases hx : loopAux script w hist 0 10 with
    | none => rw [hx] at h; simp at h
    | some q =>
      obtain ⟨qe, qw, qh, qn⟩ := q
      rw [hx] at h
      simp only [Option.map_some'] at h
      obtain rfl := Option.some.inj h
      have hle := loopAux_calls_le script 10 0 w hist _ hx
      refine ⟨by simpa using hle, ?_⟩
      intro hc
      dsimp only at hc ⊢
      subst hc
      rfl
  · cases hx : loopAux script w hist 0 15 with
    | none => rw [hx] at h; simp at h
    | some q =>
      obtain ⟨qe, qw, qh, qn⟩ := q
      rw [hx] at h
      simp only [Option.map_some'] at h
      obtain rfl := Option.some.inj h
      have hle := loopAux_calls_le script 15 0 w hist _ hx
      refine ⟨by simpa using hle, ?_⟩
      intro hc
      dsimp only at hc ⊢
      subst hc
      rfl
  · cases hx : loopAux script w hist 0 8 with
    | none => rw [hx] at h; simp at h
    | some q =>
      obtain ⟨qe, qw, qh, qn⟩ := q
      rw [hx] at h
      simp only [Option.map_some'] at h
      obtain rfl := Option.some.inj h
      have hle := loopAux_calls_le script 8 0 w hist _ hx
      refine ⟨by simpa using hle, ?_⟩
      intro hc
      dsimp only at hc ⊢
      subst hc
      rfl

/-- A model script that answers with plain text at once (no tools). -/
def scriptDone : Nat → Option Reply := fun _ => some (Reply.mk (some "hi".data) [])

/-- Concrete witness for `C4_caps_and_reports`. -/
theorem C4_caps_and_reports_witness :
    replAgentLoop scriptDone defaultWorld []
      = some (LoopResult.mk .done defaultWorld
          [assistantFinalMsg (Reply.mk (some "hi".data) [])] 1 [])
    ∧ (LoopResult.mk .done defaultWorld
          [assistantFinalMsg (Reply.mk (some "hi".data) [])] 1 []).modelCalls ≤ 10 :=
  ⟨rfl,
   ((C4_caps_and_reports scriptDone defaultWorld []).1
     (LoopResult.mk .done defaultWorld
       [assistantFinalMsg (Reply.mk (some "hi".data) [])] 1 []) rfl).1⟩

/-- A model script that requests an unrecognized tool (with parseable
arguments) on every round, so no loop invocation ever finishes. -/
def scriptToolsForever : Nat → Option Reply :=
  fun _ => some (Reply.mk none [ToolCall.mk "c1".data "nosuch_tool".data (some wArgsEmpty)])

/-- C4 counterexample: the REPL agent loop reaches its cap of 10 model
calls and terminates, but reports nothing — there is no distinct
`MaxIterationsReached` report, unlike the claim states. -/
theorem C4_counterexample_repl_cap_silent :
    (replAgentLoop scriptToolsForever defaultWorld []).map
        (fun r => (r.exit, r.modelCalls, r.notices))
      = some (LoopExit.capped, 10, ([] : List Str)) := rfl

/-! ## Validation battery and end-to-end orchestrator: `main.py` -/

/-- `_run_validation_steps()`: run the formatter, the linter and the test
runner through the process controller (capturing each output), then
classify: the battery fails exactly when the pytest output is an error
string that is not a no-tests condition.  Returns the flag, the three
captured outputs (black, ruff, pytest) and the updated world. -/
def _run_validation_steps (w : World) : Bool × (Str × Str × Str) × World :=
  let rb := run_shell_command w.inter (w.shellLaunch "black .".data) "black .".data none
  let rr := run_shell_command rb.2 (w.shellLaunch "ruff check . --fix".data)
    "ruff check . --fix".data none
  let rp := run_shell_command rr.2 (w.shellLaunch "pytest -q".data) "pytest -q".data none
  let lower := lowerStr rp.1
  let allOk := !(startsWithStr rp.1 "❌ Error:".data
    && !(containsSub "no tests ran".data lower)
    && !(containsSub "not found".data lower))
  (allOk, (rb.1, rr.1, rp.1), { w with inter := rp.2 })

/-- C6: the validation battery is classified as failing if and only if the
test-runner step's captured output is an error string that is not a
no-tests condition; in particular an output containing "no tests ran" is
classified as passing even when formatted as an error string. -/
theorem C6_validation_classification (w : World) :
    ((_run_validation_steps w).1 = false ↔
      (startsWithStr (_run_validation_steps w).2.1.2.2 "❌ Error:".data = true
       ∧ containsSub "no tests ran".data
           (lowerStr (_run_validation_steps w).2.1.2.2) = false
       ∧ containsSub "not found".data
           (lowerStr (_run_validation_steps w).2.1.2.2) = false))
    ∧ (containsSub "no tests ran".data
         (lowerStr (_run_validation_steps w).2.1.2.2) = true →
       (_run_validation_steps w).1 = true) := by
  have key : ∀ a b c : Bool,
      ((!(a && !b && !c)) = false ↔ (a = true ∧ b = false ∧ c = false))
      ∧ (b = true → (!(a && !b && !c)) = true) := by decide
  exact key _ _ _

/-- A world whose test runner reports an error whose text is the
no-tests-ran notice (pytest exits 5 with that stderr). -/
def noTestsWorld : World :=
  World.mk (FileSys.mk [] []) initialInterState
    (fun c =>
      if c = "pytest -q".data then .ok (Proc.mk [] "no tests ran in 0.01s".data 5)
      else .ok (Proc.mk ["ok\n".data] [] 0))
    (fun _ _ => (0, [], []))
    (fun _ _ => "ok".data)

/-- Concrete witness for `C6_validation_classification`: the spec's
scenario — the pytest output is the error string
"❌ Error:\nno tests ran in 0.01s", and the battery is classified passing. -/
theorem C6_validation_classification_witness :
    containsSub "no tests ran".data
      (lowerStr (_run_validation_steps noTestsWorld).2.1.2.2) = true
    ∧ startsWithStr (_run_validation_steps noTestsWorld).2.1.2.2
        "❌ Error:".data = true
    ∧ (_run_validation_steps noTestsWorld).1 = true :=
  ⟨by decide, by decide,
   (C6_validation_classification noTestsWorld).2 (by decide)⟩

/-- The retry loop of `run_end_to_end_session`
(`while not ok and retries < max_retries`): each pass re-runs the
multi-agent pipeline (supplied as a world transformer, indexed by the
attempt number) and re-validates.  Returns the total number of pipeline
invocations, the final flag and the final world. -/
def e2eAux (pipeline : Nat → World → World) :
    Nat → Nat → Bool → Nat → World → Nat × Bool × World
  | _retries, _budget, true, runs, w => (runs, true, w)
  | _retries, 0, false, runs, w => (runs, false, w)
  | retries, b + 1, false, runs, w =>
    let w1 := pipeline (retries + 1) w
    let v := _run_validation_steps w1
    e2eAux pipeline (retries + 1) b v.1 (runs + 1) v.2.2

/-- `run_end_to_end_session(goal, max_retries=...)`: run the pipeline,
validate, then retry while validation fails and budget remains (the goal
augmentation for retries is absorbed into the pipeline's attempt index).
Returns (pipeline invocations, final ok flag, final world); the commit
step does not invoke the pipeline and is outside this count. -/
def run_end_to_end_session (pipeline : Nat → World → World) (maxRetries : Nat)
    (w : World) : Nat × Bool × World :=
  let w1 := pipeline 0 w
  let v := _run_validation_steps w1
  e2eAux pipeline 0 maxRetries v.1 1 v.2.2

/-- C7: with retry budget 1 the multi-agent pipeline is invoked at most
twice for one goal; with retry budget 0 it is invoked exactly once,
regardless of the validation outcome. -/
theorem C7_pipeline_run_counts (pipeline : Nat → World → World) (w : World) :
    (run_end_to_end_session pipeline 1 w).1 ≤ 2
    ∧ (run_end_to_end_session pipeline 0 w).1 = 1 := by
  constructor
  · unfold run_end_to_end_session
    dsimp only
    cases h0 : (_run_validation_steps (pipeline 0 w)).1 with
    | true => simp [e2eAux]
    | false =>
      show (e2eAux pipeline 0 (0 + 1) false 1
        (_run_validation_steps (pipeline 0 w)).2.2).1 ≤ 2
      simp only [e2eAux]
      cases h1 : (_run_validation_steps (pipeline (0 + 1)
          (_run_validation_steps (pipeline 0 w)).2.2)).1 with
      | true => simp [e2eAux]
      | false => simp [e2eAux]
  · unfold run_end_to_end_session
    dsimp only
    cases h0 : (_run_validation_steps (pipeline 0 w)).1 with
    | true => simp [e2eAux]
    | false => simp [e2eAux]
